import Mathlib

/-!
Verification of the strawberry-school modules: a shallow embedding of the
permission-mirror sync routine (teacherchannel/module.py), the periodic
reconciliation pass, the review store (review/database.py, review/objects.py),
the catalog import and program linking (school/module.py, school/database.py)
and the semester reset commands (semester_reset/module.py), together with
theorems settling the frozen claims about them.
-/

/-! ## Permission mirror (teacherchannel/module.py, TeacherChannel._sync) -/

/-- A permission-overwrite target: a role or member object of the platform.
Platform objects compare equal by id and kind. -/
structure Target where
  id : Nat
  isRole : Bool
deriving DecidableEq

/-- A permission-overwrite value (PermissionOverwrite), opaque, compared by
equality. -/
abbrev Ow := Nat

/-- The overwrites mapping of a channel: the items of a Python dict keyed by
target.  Dict keys are unique; key uniqueness is carried as a Nodup
hypothesis where a proof needs it. -/
abbrev OwMap := List (Target × Ow)

/-- The observable overwrite state of the slave channel, read pointwise. -/
abbrev SlaveState := Target → Option Ow

/-- One recorded set_permissions call on the slave channel:
target and the new override (none clears it). -/
abbrev SyncCall := Target × Option Ow

/-- Python dict lookup on the items list (first matching key). -/
def lookup : OwMap → Target → Option Ow
  | [], _ => none
  | (k, v) :: rest, t => if k = t then some v else lookup rest t

/-- Python dict equality of two overwrite mappings: same keys mapped to the
same values, order-insensitive (the source compares with !=). -/
def dictEq (d1 d2 : OwMap) : Bool :=
  d1.all (fun p => lookup d2 p.1 == some p.2) &&
    d2.all (fun p => lookup d1 p.1 == some p.2)

/-- Effect of slave_channel.set_permissions(target, overwrite=o) on the
observable slave state. -/
def set_permissions (s : SlaveState) (t : Target) (o : Option Ow) : SlaveState :=
  fun x => if x = t then o else s x

/-- One iteration of the negative-change loop of TeacherChannel._sync:
skip pairs still present in after, skip teacher-marked targets, otherwise
clear the override on the slave channel. -/
def revokeStep (after : OwMap) (teachers : List Nat)
    (acc : SlaveState × List SyncCall) (p : Target × Ow) :
    SlaveState × List SyncCall :=
  if p ∈ after then acc
  else if p.1.id ∈ teachers then acc
  else (set_permissions acc.1 p.1 none, acc.2 ++ [(p.1, none)])

/-- One iteration of the positive-change loop of TeacherChannel._sync:
skip pairs already present in before, skip teacher-marked targets, otherwise
set the override on the slave channel to the new value. -/
def applyStep (before : OwMap) (teachers : List Nat)
    (acc : SlaveState × List SyncCall) (p : Target × Ow) :
    SlaveState × List SyncCall :=
  if p ∈ before then acc
  else if p.1.id ∈ teachers then acc
  else (set_permissions acc.1 p.1 (some p.2), acc.2 ++ [(p.1, some p.2)])

/-- A guild channel as consumed by _sync: its category and its overwrites
mapping. -/
structure Channel where
  category : Option Nat
  overwrites : OwMap

/-- The observable outcome of one TeacherChannel._sync call. -/
structure SyncResult where
  linkRemoved : Bool
  moved : Bool
  slave : SlaveState
  calls : List SyncCall

/-- TeacherChannel._sync(channel_before, channel_after, teacherchannel):
resolve the slave channel (slaveResolvable, slaveState stand for the
guild.get_channel result and the current overwrite state of that channel);
if unresolvable, delete the link and stop; move the slave when the category
changed; when the overwrite mappings differ run the negative-change pass
over before and the positive-change pass over after. -/
def sync (channel_before channel_after : Channel) (teachers : List Nat)
    (slaveResolvable : Bool) (slaveState : SlaveState) : SyncResult :=
  if slaveResolvable then
    let moved := decide (channel_after.category ≠ channel_before.category)
    if dictEq channel_after.overwrites channel_before.overwrites then
      { linkRemoved := false, moved := moved, slave := slaveState, calls := [] }
    else
      let pass1 := channel_before.overwrites.foldl
        (revokeStep channel_after.overwrites teachers) (slaveState, [])
      let pass2 := channel_after.overwrites.foldl
        (applyStep channel_before.overwrites teachers) pass1
      { linkRemoved := false, moved := moved, slave := pass2.1, calls := pass2.2 }
  else
    { linkRemoved := true, moved := false, slave := slaveState, calls := [] }

/-- The slave state obtained by reading a dict snapshot pointwise. -/
def lookupFn (d : OwMap) : SlaveState := fun t => lookup d t

/-- Decidable statement that a slave overwrite snapshot agrees with the
before snapshot on every non-teacher-marked target. -/
def agreeNonTeacher (slaveDict before : OwMap) (teachers : List Nat) : Bool :=
  slaveDict.all (fun p => decide (p.1.id ∈ teachers) || (lookup before p.1 == some p.2)) &&
    before.all (fun p => decide (p.1.id ∈ teachers) || (lookup slaveDict p.1 == some p.2))

/-- Helper predicate: some entry of l with key t is cleared by the
negative-change pass (present in l, absent as a pair from after, target not
teacher-marked). -/
def erasedAt (l after : OwMap) (teachers : List Nat) (t : Target) : Bool :=
  l.any (fun p => decide (p.1 = t) && decide (p ∉ after) && decide (p.1.id ∉ teachers))

/-! ## Periodic reconciliation (teacherchannel/module.py, load_deltas) -/

/-- Observable actions of one iteration of the load_deltas loop. -/
inductive ReconAction where
  | deleteSlave (slaveId : Nat)
  | removeLink
  | runSync
deriving DecidableEq

/-- One iteration of the load_deltas reconciliation loop for a single link:
master and slave are the guild.get_channel results for the two ids.  If the
master is unresolvable, delete the slave channel when it still resolves and
remove the link; if only the slave is unresolvable, remove the link; else
run the sync. -/
def load_deltas_step (master slave : Option Nat) : List ReconAction :=
  match master with
  | none =>
      (match slave with
       | some s => [ReconAction.deleteSlave s]
       | none => []) ++ [ReconAction.removeLink]
  | some _ =>
      match slave with
      | none => [ReconAction.removeLink]
      | some _ => [ReconAction.runSync]

/-! ## Review ordering (review/database.py, get_all_by_subject and
get_all_by_teacher) -/

/-- The fields of a review row that the listing order depends on. -/
structure ReviewRow where
  upvotes : Nat
  downvotes : Nat
  updated : Nat
deriving DecidableEq

/-- Net score of a review: upvotes minus downvotes. -/
def netScore (r : ReviewRow) : Int := (r.upvotes : Int) - (r.downvotes : Int)

/-- The comparison realized by order_by(upvotes - downvotes, updated.desc()):
the first key has no modifier, so SQL sorts it ascending; the second key is
descending. -/
def reviewOrder (a b : ReviewRow) : Prop :=
  netScore a < netScore b ∨ (netScore a = netScore b ∧ b.updated ≤ a.updated)

instance : DecidableRel reviewOrder := fun a b =>
  inferInstanceAs
    (Decidable (netScore a < netScore b ∨ (netScore a = netScore b ∧ b.updated ≤ a.updated)))

instance : IsTotal ReviewRow reviewOrder :=
  ⟨fun a b => by
    unfold reviewOrder
    rcases lt_trichotomy (netScore a) (netScore b) with h | h | h
    · exact Or.inl (Or.inl h)
    · rcases Nat.le_total b.updated a.updated with hu | hu
      · exact Or.inl (Or.inr ⟨h, hu⟩)
      · exact Or.inr (Or.inr ⟨h.symm, hu⟩)
    · exact Or.inr (Or.inl h)⟩

instance : IsTrans ReviewRow reviewOrder :=
  ⟨fun a b c hab hbc => by
    unfold reviewOrder at hab hbc ⊢
    rcases hab with h1 | h1 <;> rcases hbc with h2 | h2
    · exact Or.inl (by omega)
    · exact Or.inl (by omega)
    · exact Or.inl (by omega)
    · exact Or.inr ⟨by omega, Nat.le_trans h2.2 h1.2⟩⟩

/-- SubjectReview.get_all_by_subject: the rows of the subject, returned
sorted by the order_by clause (ascending net score, then descending updated
date). -/
def get_all_by_subject (reviews : List ReviewRow) : List ReviewRow :=
  List.insertionSort reviewOrder reviews

/-- TeacherReview.get_all_by_teacher: identical ordering clause. -/
def get_all_by_teacher (reviews : List ReviewRow) : List ReviewRow :=
  List.insertionSort reviewOrder reviews

/-! ## Review editing (review/database.py, SubjectReview.edit,
TeacherReview.edit, SubjectRelevance.reset, TeacherRelevance.reset) -/

/-- A subject review row together with its relevance (vote) records, each a
pair of voter id and the Boolean vote. -/
structure SubjectReviewState where
  grade : Int
  anonym : Bool
  textReview : String
  updated : Nat
  guarantorId : Option Nat
  subjectGuarantorId : Option Nat
  relevance : List (Nat × Bool)
deriving DecidableEq

/-- A teacher review row together with its relevance records. -/
structure TeacherReviewState where
  grade : Int
  anonym : Bool
  textReview : String
  updated : Nat
  relevance : List (Nat × Bool)
deriving DecidableEq

/-- Count of positive votes among relevance records (the upvotes column
property). -/
def upvotesOf (votes : List (Nat × Bool)) : Nat :=
  (votes.filter (fun v => v.2 == true)).length

/-- Count of negative votes among relevance records (the downvotes column
property). -/
def downvotesOf (votes : List (Nat × Bool)) : Nat :=
  (votes.filter (fun v => v.2 == false)).length

/-- SubjectReview.edit(grade, anonym, text): when the last update is strictly
older than 30 days, all relevance records are deleted first; then the new
values are stored, updated is set to today and the guarantor of the subject
is copied into the row.  Dates are day ordinals. -/
def SubjectReview_edit (today : Nat) (r : SubjectReviewState)
    (grade : Int) (anonym : Bool) (text : String) : SubjectReviewState :=
  let r := if (today : Int) - (r.updated : Int) > 30 then { r with relevance := [] } else r
  { r with grade := grade, anonym := anonym, textReview := text,
           updated := today, guarantorId := r.subjectGuarantorId }

/-- TeacherReview.edit(grade, anonym, text): same reset rule, no guarantor
column. -/
def TeacherReview_edit (today : Nat) (r : TeacherReviewState)
    (grade : Int) (anonym : Bool) (text : String) : TeacherReviewState :=
  let r := if (today : Int) - (r.updated : Int) > 30 then { r with relevance := [] } else r
  { r with grade := grade, anonym := anonym, textReview := text, updated := today }

/-! ## Embed voting (review/objects.py and review/module.py, ReviewEmbed) -/

/-- The vote record of a user on a review, if any (SubjectRelevance or
TeacherRelevance row keyed by voter id). -/
def findVote (store : List (Nat × Bool)) (userId : Nat) : Option (Nat × Bool) :=
  store.find? (fun rec => rec.1 == userId)

/-- SubjectReview.vote / TeacherReview.vote: none deletes the record of this
voter when present; some b upserts the record with vote b. -/
def review_vote (store : List (Nat × Bool)) (userId : Nat) (v : Option Bool) :
    List (Nat × Bool) :=
  match v with
  | none =>
      match findVote store userId with
      | none => store
      | some _ => store.filter (fun rec => !(rec.1 == userId))
  | some b =>
      match findVote store userId with
      | none => store ++ [(userId, b)]
      | some _ => store.map (fun rec => if rec.1 == userId then (rec.1, b) else rec)

/-- ReviewEmbed.vote_up / vote_neutral / vote_down: the author check runs
first and returns before review.vote is invoked; then the ACL check; only
then review.vote is called with the interaction value. -/
def embed_vote (authorId : Nat) (hasPerm : Bool) (store : List (Nat × Bool))
    (userId : Nat) (v : Option Bool) : List (Nat × Bool) :=
  if authorId = userId then store
  else if !hasPerm then store
  else review_vote store userId v

/-- The vote records of a given voter on the review. -/
def authorVotes (authorId : Nat) (store : List (Nat × Bool)) : List (Nat × Bool) :=
  store.filter (fun rec => rec.1 == authorId)

/-! ## Program linking (school/module.py, School._link_program_subject and
OBLIGATIONS) -/

/-- Replies that School._link_program_subject can send. -/
inductive LinkMsg where
  | programNotFound
  | subjectNotFound
  | invalidObligation
  | alreadyExists
  | linked
deriving DecidableEq

/-- Outcome of the link command: the replies sent, and the obligation of the
SubjectProgram relation row inserted by add_relation, when one was. -/
structure LinkOutcome where
  replies : List LinkMsg
  inserted : Option String
deriving DecidableEq

/-- The closed obligation enumeration of school/module.py. -/
def OBLIGATIONS : List String := ["P", "PV", "D", "V", "VO", "O"]

/-- Python str.upper on the ASCII obligation codes, written over the
character list so it evaluates in the kernel. -/
def pyUpper (s : String) : String := String.mk (s.data.map Char.toUpper)

/-- School._link_program_subject: resolve program and subject, upper-case the
obligation, reply with the valid codes when it is not in OBLIGATIONS — the
source does not return there, and the reply loop rebinds the obligation
variable, leaving it at the last element of OBLIGATIONS — then check for an
existing relation and insert the row. -/
def link_program_subject (programFound subjectFound : Bool)
    (relationExists : String → Bool) (obligation : String) : LinkOutcome :=
  if !programFound then { replies := [LinkMsg.programNotFound], inserted := none }
  else if !subjectFound then { replies := [LinkMsg.subjectNotFound], inserted := none }
  else
    let obligation := pyUpper obligation
    let validationReplies :=
      if !(OBLIGATIONS.contains obligation) then [LinkMsg.invalidObligation] else []
    let obligation :=
      if !(OBLIGATIONS.contains obligation) then
        match OBLIGATIONS.getLast? with
        | some last => last
        | none => obligation
      else obligation
    if relationExists obligation then
      { replies := validationReplies ++ [LinkMsg.alreadyExists], inserted := none }
    else
      { replies := validationReplies ++ [LinkMsg.linked], inserted := some obligation }

/-! ## Bulk teacher import (school/module.py, School._import_teachers, and
school/database.py, class Teacher) -/

/-- The attributes defined on the Teacher class of school/database.py
(columns, relationships and methods); attribute access on any other name
raises AttributeError. -/
def teacherClassAttrs : List String :=
  ["idx", "school_id", "guild_id", "name", "subjects", "guaranted_subjects",
   "add_used_filter_generator", "add_is_used_check", "get_by_sid", "search",
   "get_or_create", "purge", "get_not_used", "edit", "is_used", "delete", "dump"]

/-- The attribute name School._import_teachers looks up on the Teacher
class. -/
def updateOrCreateName : String := "update_or_create"

/-- Python attribute lookup on the Teacher class: ok when the attribute
exists, AttributeError otherwise. -/
def getattr_Teacher (attr : String) : Except String Unit :=
  if teacherClassAttrs.contains attr then Except.ok ()
  else Except.error ("AttributeError: " ++ attr)

/-- School._import_teachers: walk the id-to-name entries of a subject record,
calling Teacher.update_or_create on each.  The attribute is resolved before
any call can happen. -/
def school_import_teachers (entries : List (Nat × String)) :
    Except String (List (Nat × String)) :=
  entries.foldlM
    (fun acc e => do
      let _ ← getattr_Teacher updateOrCreateName
      pure (acc ++ [e]))
    []

/-- A teacher row of the school dataset. -/
structure TeacherRow where
  schoolId : Nat
  guildId : Nat
  name : String
deriving DecidableEq

/-- Teacher.get_or_create: reuse the row with this school id in the guild
when it exists, create it otherwise (the upsert the import was written
against). -/
def Teacher_get_or_create (db : List TeacherRow) (guildId schoolId : Nat)
    (name : String) : List TeacherRow × TeacherRow :=
  match db.find? (fun r => r.schoolId == schoolId && r.guildId == guildId) with
  | some r => (db, r)
  | none =>
      let r : TeacherRow := { schoolId := schoolId, guildId := guildId, name := name }
      (db ++ [r], r)

/-! ## Semester reset and sudo delete (semester_reset/module.py and
review/module.py, review_subject_sudo_remove) -/

/-- Observable actions of the reset and sudo-delete commands. -/
inductive ResetAction where
  | prompt
  | removeRole (roleId memberId : Nat)
  | clearOverwrite (channelId targetId : Nat)
  | deleteReview (idx : Nat)
deriving DecidableEq

/-- SemesterReset.role_reset: when both boundary roles are found, walk the
role range and remove each role from each of its members; no confirmation
step exists in the source. -/
def role_reset (rolesFound : Bool) (roles : List (Nat × List Nat)) : List ResetAction :=
  if !rolesFound then []
  else roles.foldl
    (fun acc rm => acc ++ rm.2.map (fun m => ResetAction.removeRole rm.1 m)) []

/-- SemesterReset.channels_reset: walk the channels of the chosen categories
and clear every member-target overwrite (role targets are skipped); no
confirmation step exists in the source.  Each overwrite target carries a
flag telling whether it is a member. -/
def channels_reset (channels : List (Nat × List (Nat × Bool))) : List ResetAction :=
  channels.foldl
    (fun acc ch =>
      acc ++ (ch.2.filter (fun tgt => tgt.2)).map
        (fun tgt => ResetAction.clearOverwrite ch.1 tgt.1))
    []

/-- review_subject_sudo_remove: when the review exists, a ConfirmView prompt
is shown; the review is deleted only on an affirmative answer — a timeout
(none) or a negative answer leaves it untouched. -/
def review_subject_sudo_remove (reviewFound : Bool) (idx : Nat)
    (confirm : Option Bool) : List ResetAction :=
  if !reviewFound then []
  else
    ResetAction.prompt ::
      (match confirm with
       | some true => [ResetAction.deleteReview idx]
       | _ => [])

/-! ## Concrete inputs used by witnesses and counterexamples -/

/-- Master snapshot before the update, for the C1 witness. -/
def cbW : Channel := { category := none, overwrites := [(⟨1, false⟩, 5)] }

/-- Master snapshot after the update, for the C1 witness. -/
def caW : Channel := { category := none, overwrites := [(⟨1, false⟩, 6), (⟨2, true⟩, 9)] }

/-- Slave overwrite snapshot in sync with cbW, for the C1 witness. -/
def sdW : OwMap := [(⟨1, false⟩, 5)]

/-- Target inspected by the C1 witness. -/
def tW : Target := ⟨1, false⟩

/-- Master snapshot before the update, for the C1 counterexample. -/
def cexBefore : Channel := { category := none, overwrites := [] }

/-- Master snapshot after the update, for the C1 counterexample. -/
def cexAfter : Channel := { category := none, overwrites := [(⟨2, false⟩, 7)] }

/-- A slave state holding a stale overwrite for a target in neither
snapshot, for the C1 counterexample. -/
def cexSlave : SlaveState := lookupFn [(⟨9, false⟩, 5)]

/-- Master snapshot before the update, for the C2 witness. -/
def cbW2 : Channel := { category := none, overwrites := [(⟨3, false⟩, 1)] }

/-- Master snapshot after the update (the teacher target removed), for the
C2 witness. -/
def caW2 : Channel := { category := none, overwrites := [] }

/-- Slave state for the C2 witness. -/
def slW2 : SlaveState := lookupFn [(⟨3, false⟩, 1)]

/-- Teacher-marked target for the C2 witness. -/
def tW2 : Target := ⟨3, false⟩

/-- Channel snapshot for the C3 witness. -/
def cW3 : Channel := { category := some 4, overwrites := [(⟨1, false⟩, 5), (⟨2, true⟩, 6)] }

/-- Slave state for the C3 witness. -/
def slW3 : SlaveState := lookupFn [(⟨8, false⟩, 2)]

/-- Review with net score 3 updated in February (day 59). -/
def rFeb : ReviewRow := { upvotes := 3, downvotes := 0, updated := 59 }

/-- Review with net score 3 updated in January (day 15). -/
def rJan : ReviewRow := { upvotes := 3, downvotes := 0, updated := 15 }

/-- Review with net score 1 updated in March (day 70). -/
def rMar : ReviewRow := { upvotes := 1, downvotes := 0, updated := 70 }

/-- Original text of the review in the C6 counterexample. -/
def oldText : String := "old"

/-- Replacement text of the review in the C6 counterexample. -/
def newText : String := "new"

/-- A review updated at day 0 holding one upvote, edited at day 30 in the C6
counterexample: the update is exactly 30 days old. -/
def r0C6 : SubjectReviewState :=
  { grade := 1, anonym := true, textReview := oldText, updated := 0,
    guarantorId := none, subjectGuarantorId := none, relevance := [(42, true)] }

/-- An obligation code outside the closed enumeration, for the C8 input. -/
def obligationX : String := "X"

/-- The last element of OBLIGATIONS, the value the shadowed loop variable
holds after the validation reply loop. -/
def lastObligation : String := "O"

/-! ## Helper lemmas about dict lookup and equality -/

theorem lookup_eq_none_of_not_mem_keys (l : OwMap) (t : Target)
    (h : t ∉ l.map Prod.fst) : lookup l t = none := by
  induction l with
  | nil => rfl
  | cons p rest ih =>
    obtain ⟨k, v⟩ := p
    simp only [List.map_cons, List.mem_cons, not_or] at h
    simp only [lookup]
    rw [if_neg (fun he => h.1 he.symm), ih h.2]

theorem mem_of_lookup_eq_some (l : OwMap) (t : Target) (v : Ow)
    (h : lookup l t = some v) : (t, v) ∈ l := by
  induction l with
  | nil => simp [lookup] at h
  | cons p rest ih =>
    obtain ⟨k, w⟩ := p
    simp only [lookup] at h
    by_cases hk : k = t
    · rw [if_pos hk] at h
      injection h with hv
      subst hk; subst hv
      exact List.mem_cons_self _ _
    · rw [if_neg hk] at h
      exact List.mem_cons_of_mem _ (ih h)

theorem lookup_isSome_of_mem (l : OwMap) (p : Target × Ow) (h : p ∈ l) :
    (lookup l p.1).isSome := by
  induction l with
  | nil => cases h
  | cons q rest ih =>
    obtain ⟨k, w⟩ := q
    by_cases hk : k = p.1
    · simp [lookup, hk]
    · simp only [lookup, if_neg hk]
      rcases List.mem_cons.mp h with he | hm
      · exact absurd (congrArg Prod.fst he).symm hk
      · exact ih hm

theorem lookup_eq_of_mem_nodup (l : OwMap) (p : Target × Ow)
    (hnd : (l.map Prod.fst).Nodup) (h : p ∈ l) : lookup l p.1 = some p.2 := by
  induction l with
  | nil => cases h
  | cons q rest ih =>
    obtain ⟨k, w⟩ := q
    simp only [List.map_cons, List.nodup_cons] at hnd
    rcases List.mem_cons.mp h with he | hm
    · subst he
      simp [lookup]
    · by_cases hk : k = p.1
      · exfalso
        exact hnd.1 (hk ▸ (List.mem_map_of_mem Prod.fst hm))
      · simp only [lookup, if_neg hk]
        exact ih hnd.2 hm

theorem dictEq_lookup (d1 d2 : OwMap) (h : dictEq d1 d2 = true) (t : Target) :
    lookup d1 t = lookup d2 t := by
  unfold dictEq at h
  rw [Bool.and_eq_true] at h
  obtain ⟨h1, h2⟩ := h
  rw [List.all_eq_true] at h1 h2
  cases hl1 : lookup d1 t with
  | some v =>
    have hm := mem_of_lookup_eq_some d1 t v hl1
    have hb := h1 _ hm
    rw [beq_iff_eq] at hb
    exact hb.symm
  | none =>
    cases hl2 : lookup d2 t with
    | none => rfl
    | some v =>
      have hm := mem_of_lookup_eq_some d2 t v hl2
      have hb := h2 _ hm
      rw [beq_iff_eq] at hb
      rw [hb] at hl1
      cases hl1

theorem dictEq_refl (d : OwMap) (h : (d.map Prod.fst).Nodup) : dictEq d d = true := by
  unfold dictEq
  rw [Bool.and_eq_true]
  constructor <;>
    · rw [List.all_eq_true]
      intro p hp
      rw [beq_iff_eq]
      exact lookup_eq_of_mem_nodup d p h hp

theorem agreeNonTeacher_lookup (sd b : OwMap) (T : List Nat)
    (h : agreeNonTeacher sd b T = true) (t : Target) (ht : t.id ∉ T) :
    lookup sd t = lookup b t := by
  unfold agreeNonTeacher at h
  rw [Bool.and_eq_true] at h
  obtain ⟨h1, h2⟩ := h
  rw [List.all_eq_true] at h1 h2
  cases hl1 : lookup sd t with
  | some v =>
    have hm := mem_of_lookup_eq_some sd t v hl1
    have hb := h1 _ hm
    simp only [Bool.or_eq_true, decide_eq_true_eq, beq_iff_eq] at hb
    rcases hb with hT | he
    · exact absurd hT ht
    · exact he.symm
  | none =>
    cases hl2 : lookup b t with
    | none => rfl
    | some v =>
      have hm := mem_of_lookup_eq_some b t v hl2
      have hb := h2 _ hm
      simp only [Bool.or_eq_true, decide_eq_true_eq, beq_iff_eq] at hb
      rcases hb with hT | he
      · exact absurd hT ht
      · rw [he] at hl1
        cases hl1

/-! ## Helper lemmas about the two sync passes -/

theorem erasedAt_nil (after : OwMap) (T : List Nat) (t : Target) :
    erasedAt [] after T t = false := rfl

theorem erasedAt_cons (p : Target × Ow) (rest after : OwMap) (T : List Nat) (t : Target) :
    erasedAt (p :: rest) after T t =
      ((decide (p.1 = t) && decide (p ∉ after) && decide (p.1.id ∉ T)) ||
        erasedAt rest after T t) := by
  simp [erasedAt, List.any_cons]

theorem erasedAt_eq_true_iff (l after : OwMap) (T : List Nat) (t : Target) :
    erasedAt l after T t = true ↔
      ∃ p ∈ l, p.1 = t ∧ p ∉ after ∧ p.1.id ∉ T := by
  simp [erasedAt, List.any_eq_true, and_assoc]

theorem revoke_fold_at (after : OwMap) (T : List Nat) (t : Target) :
    ∀ (l : OwMap) (acc : SlaveState × List SyncCall),
      (l.foldl (revokeStep after T) acc).1 t =
        if erasedAt l after T t then none else acc.1 t := by
  intro l
  induction l with
  | nil => intro acc; simp [erasedAt_nil]
  | cons p rest ih =>
    intro acc
    rw [List.foldl_cons, ih, erasedAt_cons]
    by_cases h1 : p ∈ after
    · simp [revokeStep, h1]
    · by_cases h2 : p.1.id ∈ T
      · simp [revokeStep, h1, h2]
      · by_cases h3 : p.1 = t
        · have hstep : (revokeStep after T acc p).1 t = none := by
            unfold revokeStep
            rw [if_neg h1, if_neg h2]
            show (set_permissions acc.1 p.1 none) t = none
            unfold set_permissions
            rw [if_pos h3.symm]
          have hcond :
              (decide (p.1 = t) && decide (p ∉ after) && decide (p.1.id ∉ T)) = true := by
            simp only [h3, decide_True, Bool.true_and, Bool.and_eq_true,
              decide_eq_true_eq]
            exact ⟨h1, h3 ▸ h2⟩
          rw [hstep, hcond, ite_self, Bool.true_or, if_pos rfl]
        · have hstep : (revokeStep after T acc p).1 t = acc.1 t := by
            unfold revokeStep
            rw [if_neg h1, if_neg h2]
            show (set_permissions acc.1 p.1 none) t = acc.1 t
            unfold set_permissions
            rw [if_neg (fun he => h3 he.symm)]
          have hcond :
              (decide (p.1 = t) && decide (p ∉ after) && decide (p.1.id ∉ T)) = false := by
            simp [h3]
          rw [hstep, hcond, Bool.false_or]

theorem apply_fold_at (before : OwMap) (T : List Nat) (t : Target) :
    ∀ (l : OwMap), (l.map Prod.fst).Nodup → ∀ (acc : SlaveState × List SyncCall),
      (l.foldl (applyStep before T) acc).1 t =
        (match lookup l t with
         | some v => if ((t, v) ∈ before ∨ t.id ∈ T) then acc.1 t else some v
         | none => acc.1 t) := by
  intro l
  induction l with
  | nil => intro _ acc; rfl
  | cons p rest ih =>
    intro hnd acc
    obtain ⟨k, v⟩ := p
    simp only [List.map_cons, List.nodup_cons] at hnd
    rw [List.foldl_cons, ih hnd.2]
    by_cases hk : k = t
    · subst hk
      have hrest : lookup rest k = none :=
        lookup_eq_none_of_not_mem_keys rest k hnd.1
      rw [hrest]
      have hlk : lookup ((k, v) :: rest) k = some v := by
        simp [lookup]
      rw [hlk]
      by_cases h1 : (k, v) ∈ before
      · have hstep : (applyStep before T acc (k, v)).1 k = acc.1 k := by
          unfold applyStep
          rw [if_pos h1]
        rw [hstep]
        show acc.1 k = if ((k, v) ∈ before ∨ k.id ∈ T) then acc.1 k else some v
        rw [if_pos (Or.inl h1)]
      · by_cases h2 : k.id ∈ T
        · have hstep : (applyStep before T acc (k, v)).1 k = acc.1 k := by
            unfold applyStep
            rw [if_neg h1, if_pos h2]
          rw [hstep]
          show acc.1 k = if ((k, v) ∈ before ∨ k.id ∈ T) then acc.1 k else some v
          rw [if_pos (Or.inr h2)]
        · have hstep : (applyStep before T acc (k, v)).1 k = some v := by
            unfold applyStep
            rw [if_neg h1, if_neg h2]
            show (set_permissions acc.1 k (some v)) k = some v
            unfold set_permissions
            rw [if_pos rfl]
          rw [hstep]
          show some v = if ((k, v) ∈ before ∨ k.id ∈ T) then acc.1 k else some v
          rw [if_neg]
          intro hor
          rcases hor with hor | hor
          · exact h1 hor
          · exact h2 hor
    · have hlk : lookup ((k, v) :: rest) t = lookup rest t := by
        simp [lookup, hk]
      rw [hlk]
      have hstep : (applyStep before T acc (k, v)).1 t = acc.1 t := by
        unfold applyStep
        by_cases h1 : (k, v) ∈ before
        · rw [if_pos h1]
        · by_cases h2 : k.id ∈ T
          · rw [if_neg h1, if_pos h2]
          · rw [if_neg h1, if_neg h2]
            show (set_permissions acc.1 k (some v)) t = acc.1 t
            unfold set_permissions
            rw [if_neg (fun he => hk he.symm)]
      cases hl : lookup rest t with
      | none => rw [hstep]
      | some w => rw [hstep]

theorem revoke_fold_teacher (after : OwMap) (T : List Nat) (t : Target)
    (h : t.id ∈ T) :
    ∀ (l : OwMap) (acc : SlaveState × List SyncCall),
      (l.foldl (revokeStep after T) acc).1 t = acc.1 t := by
  intro l
  induction l with
  | nil => intro acc; rfl
  | cons p rest ih =>
    intro acc
    rw [List.foldl_cons, ih]
    unfold revokeStep
    by_cases h1 : p ∈ after
    · rw [if_pos h1]
    · by_cases h2 : p.1.id ∈ T
      · rw [if_neg h1, if_pos h2]
      · rw [if_neg h1, if_neg h2]
        show (set_permissions acc.1 p.1 none) t = acc.1 t
        unfold set_permissions
        rw [if_neg]
        intro he
        exact h2 (he ▸ h)

theorem apply_fold_teacher (before : OwMap) (T : List Nat) (t : Target)
    (h : t.id ∈ T) :
    ∀ (l : OwMap) (acc : SlaveState × List SyncCall),
      (l.foldl (applyStep before T) acc).1 t = acc.1 t := by
  intro l
  induction l with
  | nil => intro acc; rfl
  | cons p rest ih =>
    intro acc
    rw [List.foldl_cons, ih]
    unfold applyStep
    by_cases h1 : p ∈ before
    · rw [if_pos h1]
    · by_cases h2 : p.1.id ∈ T
      · rw [if_neg h1, if_pos h2]
      · rw [if_neg h1, if_neg h2]
        show (set_permissions acc.1 p.1 (some p.2)) t = acc.1 t
        unfold set_permissions
        rw [if_neg]
        intro he
        exact h2 (he ▸ h)

theorem revoke_fold_calls (after : OwMap) (T : List Nat) :
    ∀ (l : OwMap) (acc : SlaveState × List SyncCall),
      (∀ c ∈ acc.2, c.1.id ∉ T) →
      ∀ c ∈ (l.foldl (revokeStep after T) acc).2, c.1.id ∉ T := by
  intro l
  induction l with
  | nil => intro acc h; exact h
  | cons p rest ih =>
    intro acc h
    rw [List.foldl_cons]
    apply ih
    unfold revokeStep
    by_cases h1 : p ∈ after
    · rw [if_pos h1]; exact h
    · by_cases h2 : p.1.id ∈ T
      · rw [if_neg h1, if_pos h2]; exact h
      · rw [if_neg h1, if_neg h2]
        intro c hc
        rcases List.mem_append.mp hc with hc | hc
        · exact h c hc
        · rw [List.mem_singleton] at hc
          subst hc
          exact h2

theorem apply_fold_calls (before : OwMap) (T : List Nat) :
    ∀ (l : OwMap) (acc : SlaveState × List SyncCall),
      (∀ c ∈ acc.2, c.1.id ∉ T) →
      ∀ c ∈ (l.foldl (applyStep before T) acc).2, c.1.id ∉ T := by
  intro l
  induction l with
  | nil => intro acc h; exact h
  | cons p rest ih =>
    intro acc h
    rw [List.foldl_cons]
    apply ih
    unfold applyStep
    by_cases h1 : p ∈ before
    · rw [if_pos h1]; exact h
    · by_cases h2 : p.1.id ∈ T
      · rw [if_neg h1, if_pos h2]; exact h
      · rw [if_neg h1, if_neg h2]
        intro c hc
        rcases List.mem_append.mp hc with hc | hc
        · exact h c hc
        · rw [List.mem_singleton] at hc
          subst hc
          exact h2

/-! ## Claim theorems -/

/-- C1 (amended): for every pair of before/after overwrite mappings and every
link whose slave channel is resolvable, provided the slave channel's
non-teacher overwrites initially coincide with the before snapshot's
non-teacher overwrites, after sync the slave channel's overwrite mapping
equals the after snapshot restricted to targets not teacher-marked for the
link, unioned with the slave's pre-existing overwrites for teacher-marked
targets. -/
theorem sync_mirrors_after (cb ca : Channel) (teachers : List Nat)
    (slaveDict : OwMap) (t : Target)
    (hb : (cb.overwrites.map Prod.fst).Nodup)
    (ha : (ca.overwrites.map Prod.fst).Nodup)
    (hagree : agreeNonTeacher slaveDict cb.overwrites teachers = true) :
    (sync cb ca teachers true (lookupFn slaveDict)).slave t =
      if t.id ∈ teachers then lookup slaveDict t else lookup ca.overwrites t := by
  unfold sync
  rw [if_pos rfl]
  by_cases hd : dictEq ca.overwrites cb.overwrites = true
  · rw [if_pos hd]
    by_cases ht : t.id ∈ teachers
    · rw [if_pos ht]
      rfl
    · rw [if_neg ht]
      show lookup slaveDict t = lookup ca.overwrites t
      rw [agreeNonTeacher_lookup slaveDict cb.overwrites teachers hagree t ht]
      exact (dictEq_lookup ca.overwrites cb.overwrites hd t).symm
  · rw [if_neg hd]
    show (ca.overwrites.foldl (applyStep cb.overwrites teachers)
        (cb.overwrites.foldl (revokeStep ca.overwrites teachers)
          (lookupFn slaveDict, []))).1 t =
      if t.id ∈ teachers then lookup slaveDict t else lookup ca.overwrites t
    by_cases ht : t.id ∈ teachers
    · rw [apply_fold_teacher cb.overwrites teachers t ht,
        revoke_fold_teacher ca.overwrites teachers t ht, if_pos ht]
      rfl
    · have hsl : lookup slaveDict t = lookup cb.overwrites t :=
        agreeNonTeacher_lookup slaveDict cb.overwrites teachers hagree t ht
      rw [if_neg ht, apply_fold_at cb.overwrites teachers t ca.overwrites ha]
      cases hla : lookup ca.overwrites t with
      | some v =>
        by_cases hvb : (t, v) ∈ cb.overwrites
        · show (if ((t, v) ∈ cb.overwrites ∨ t.id ∈ teachers)
              then (cb.overwrites.foldl (revokeStep ca.overwrites teachers)
                (lookupFn slaveDict, [])).1 t
              else some v) = some v
          rw [if_pos (Or.inl hvb), revoke_fold_at]
          have hbt : lookup cb.overwrites t = some v :=
            lookup_eq_of_mem_nodup cb.overwrites (t, v) hb hvb
          have hE : erasedAt cb.overwrites ca.overwrites teachers t = false := by
            rw [Bool.eq_false_iff]
            intro htrue
            rw [erasedAt_eq_true_iff] at htrue
            obtain ⟨p, hp, hpt, hpa, hpT⟩ := htrue
            have hlp : lookup cb.overwrites p.1 = some p.2 :=
              lookup_eq_of_mem_nodup cb.overwrites p hb hp
            rw [hpt, hbt] at hlp
            injection hlp with hv
            apply hpa
            have hpe : p = (t, v) := by
              rcases p with ⟨p1, p2⟩
              simp only at hpt hv
              rw [hpt, ← hv]
            rw [hpe]
            exact mem_of_lookup_eq_some ca.overwrites t v hla
          rw [hE]
          show lookupFn slaveDict t = some v
          show lookup slaveDict t = some v
          rw [hsl, hbt]
        · show (if ((t, v) ∈ cb.overwrites ∨ t.id ∈ teachers)
              then (cb.overwrites.foldl (revokeStep ca.overwrites teachers)
                (lookupFn slaveDict, [])).1 t
              else some v) = some v
          rw [if_neg]
          intro hor
          rcases hor with hor | hor
          · exact hvb hor
          · exact ht hor
      | none =>
        show (cb.overwrites.foldl (revokeStep ca.overwrites teachers)
            (lookupFn slaveDict, [])).1 t = none
        rw [revoke_fold_at]
        cases hbt : lookup cb.overwrites t with
        | some w =>
          have hE : erasedAt cb.overwrites ca.overwrites teachers t = true := by
            rw [erasedAt_eq_true_iff]
            refine ⟨(t, w), mem_of_lookup_eq_some cb.overwrites t w hbt, rfl, ?_, ht⟩
            intro hmem
            have := lookup_isSome_of_mem ca.overwrites (t, w) hmem
            rw [hla] at this
            cases this
          rw [hE, if_pos rfl]
        | none =>
          have hE : erasedAt cb.overwrites ca.overwrites teachers t = false := by
            rw [Bool.eq_false_iff]
            intro htrue
            rw [erasedAt_eq_true_iff] at htrue
            obtain ⟨p, hp, hpt, hpa, hpT⟩ := htrue
            have := lookup_isSome_of_mem cb.overwrites p hp
            rw [hpt, hbt] at this
            cases this
          rw [hE]
          show lookup slaveDict t = none
          rw [hsl, hbt]

/-- Witness for C1: concrete snapshots where the slave is in sync with the
before snapshot, evaluated at a concrete target. -/
theorem sync_mirrors_after_witness :
    ((cbW.overwrites.map Prod.fst).Nodup) ∧
      ((caW.overwrites.map Prod.fst).Nodup) ∧
      (agreeNonTeacher sdW cbW.overwrites [] = true) ∧
      ((sync cbW caW [] true (lookupFn sdW)).slave tW =
        if tW.id ∈ ([] : List Nat) then lookup sdW tW else lookup caW.overwrites tW) :=
  ⟨by decide, by decide, by decide,
    sync_mirrors_after cbW caW [] sdW tW (by decide) (by decide) (by decide)⟩

/-- C1 counterexample: with an empty before snapshot and a slave channel
still holding an overwrite for the non-teacher target 9, sync leaves that
stale overwrite in place even though the after snapshot has no entry for it,
so the resulting mapping is not the after snapshot restricted to non-teacher
targets unioned with the teacher-marked slave overwrites. -/
theorem sync_mirrors_after_cex :
    (sync cexBefore cexAfter [] true cexSlave).slave ⟨9, false⟩ = some 5 ∧
      lookup cexAfter.overwrites ⟨9, false⟩ = none ∧
      (⟨9, false⟩ : Target).id ∉ ([] : List Nat) := by decide

/-- C2: for every before/after pair and every overwrite target whose id is
among the link's teacher marks, sync performs no permission change for that
target on the slave channel: neither the revocation pass nor the application
pass issues a set_permissions call for it, and its override is left exactly
as it was. -/
theorem sync_never_touches_teacher (cb ca : Channel) (teachers : List Nat)
    (sl : SlaveState) (t : Target) (h : t.id ∈ teachers) :
    (sync cb ca teachers true sl).slave t = sl t ∧
      ((sync cb ca teachers true sl).calls.any (fun c => c.1 == t)) = false := by
  unfold sync
  rw [if_pos rfl]
  by_cases hd : dictEq ca.overwrites cb.overwrites = true
  · rw [if_pos hd]
    exact ⟨rfl, rfl⟩
  · rw [if_neg hd]
    constructor
    · show (ca.overwrites.foldl (applyStep cb.overwrites teachers)
          (cb.overwrites.foldl (revokeStep ca.overwrites teachers) (sl, []))).1 t = sl t
      rw [apply_fold_teacher cb.overwrites teachers t h,
        revoke_fold_teacher ca.overwrites teachers t h]
    · show ((ca.overwrites.foldl (applyStep cb.overwrites teachers)
          (cb.overwrites.foldl (revokeStep ca.overwrites teachers)
            (sl, []))).2.any (fun c => c.1 == t)) = false
      have hbase : ∀ c ∈ ((sl, []) : SlaveState × List SyncCall).2, c.1.id ∉ teachers := by
        intro c hc
        cases hc
      have hcalls := apply_fold_calls cb.overwrites teachers ca.overwrites
        (cb.overwrites.foldl (revokeStep ca.overwrites teachers) (sl, []))
        (revoke_fold_calls ca.overwrites teachers cb.overwrites (sl, []) hbase)
      rw [List.any_eq_false]
      intro c hc
      rw [beq_iff_eq]
      intro he
      exact hcalls c hc (he ▸ h)

/-- Witness for C2: a link with member 3 teacher-marked; the after snapshot
drops the overwrite of member 3 entirely, yet sync leaves the slave override
of member 3 untouched and issues no call for it. -/
theorem sync_never_touches_teacher_witness :
    ((tW2.id ∈ [3]) ∧
      ((sync cbW2 caW2 [3] true slW2).slave tW2 = slW2 tW2 ∧
        ((sync cbW2 caW2 [3] true slW2).calls.any (fun c => c.1 == tW2)) = false)) :=
  ⟨by decide, sync_never_touches_teacher cbW2 caW2 [3] slW2 tW2 (by decide)⟩

/-- C3: sync is idempotent: for every channel state c (a dict, so its keys
are unique) and every link whose slave channel is resolvable, sync(c, c,
link) performs no category move, issues no overwrite call, leaves the slave
state unchanged and does not remove the link. -/
theorem sync_self_noop (c : Channel) (teachers : List Nat) (sl : SlaveState)
    (h : (c.overwrites.map Prod.fst).Nodup) :
    (sync c c teachers true sl).moved = false ∧
      (sync c c teachers true sl).calls = [] ∧
      (sync c c teachers true sl).slave = sl ∧
      (sync c c teachers true sl).linkRemoved = false := by
  unfold sync
  rw [if_pos rfl, if_pos (dictEq_refl c.overwrites h)]
  refine ⟨?_, rfl, rfl, rfl⟩
  show decide (c.category ≠ c.category) = false
  simp

/-- Witness for C3: sync of a concrete channel against itself. -/
theorem sync_self_noop_witness :
    ((cW3.overwrites.map Prod.fst).Nodup) ∧
      ((sync cW3 cW3 [3] true slW3).moved = false ∧
        (sync cW3 cW3 [3] true slW3).calls = [] ∧
        (sync cW3 cW3 [3] true slW3).slave = slW3 ∧
        (sync cW3 cW3 [3] true slW3).linkRemoved = false) :=
  ⟨by decide, sync_self_noop cW3 [3] slW3 (by decide)⟩

/-- C4: in the periodic reconciliation pass, a link whose master channel does
not resolve has its slave channel deleted when that still resolves and the
link row removed; a link whose master resolves but whose slave does not only
has the link row removed, and the master channel is never touched. -/
theorem load_deltas_prunes_stale_links (m s : Nat) :
    load_deltas_step none (some s) =
        [ReconAction.deleteSlave s, ReconAction.removeLink] ∧
      load_deltas_step none none = [ReconAction.removeLink] ∧
      load_deltas_step (some m) none = [ReconAction.removeLink] ∧
      load_deltas_step (some m) (some s) = [ReconAction.runSync] :=
  ⟨rfl, rfl, rfl, rfl⟩

/-- C5 counterexample: with reviews of (net, updated) = (3, Feb), (3, Jan),
(1, Mar), the listing puts the net-score-1 review first: the first key of
the order_by clause carries no modifier and therefore sorts ascending, not
descending as the claim states. -/
theorem get_all_by_subject_cex :
    get_all_by_subject [rFeb, rJan, rMar] = [rMar, rFeb, rJan] ∧
      netScore rMar < netScore rFeb := by decide

/-- C5 (amended): listing reviews for a subject (and likewise a teacher)
returns a permutation of the rows sorted by net score ascending, with ties
broken by most-recent updated date first. -/
theorem get_all_sorted (l1 l2 : List ReviewRow) :
    List.Perm (get_all_by_subject l1) l1 ∧
      List.Sorted reviewOrder (get_all_by_subject l1) ∧
      List.Perm (get_all_by_teacher l2) l2 ∧
      List.Sorted reviewOrder (get_all_by_teacher l2) :=
  ⟨List.perm_insertionSort reviewOrder l1,
    List.sorted_insertionSort reviewOrder l1,
    List.perm_insertionSort reviewOrder l2,
    List.sorted_insertionSort reviewOrder l2⟩

/-- C6 counterexample: a review updated exactly 30 days ago keeps its vote
across an edit: the source tests strictly greater than timedelta(days=30),
so a 30-day-old review is not reset, contradicting the claim's threshold of
30 or more days. -/
theorem review_edit_threshold_cex :
    ((30 : Int) - (r0C6.updated : Int) ≥ 30) ∧
      ¬ (upvotesOf (SubjectReview_edit 30 r0C6 2 true newText).relevance = 0) := by
  decide

/-- C6 (amended): editing a review whose updated date is strictly more than
30 days before today deletes all of its vote records before the new
grade/anonym/text values take effect, leaving zero upvotes and downvotes;
a review updated 30 or fewer days ago keeps all its votes across the edit.
Stated for both the subject and the teacher variant. -/
theorem review_edit_relevance_reset (today : Nat) (r : SubjectReviewState)
    (r2 : TeacherReviewState) (g : Int) (a : Bool) (tx : String) :
    (SubjectReview_edit today r g a tx).relevance =
        (if (today : Int) - (r.updated : Int) > 30 then [] else r.relevance) ∧
      upvotesOf (SubjectReview_edit today r g a tx).relevance =
        (if (today : Int) - (r.updated : Int) > 30 then 0 else upvotesOf r.relevance) ∧
      downvotesOf (SubjectReview_edit today r g a tx).relevance =
        (if (today : Int) - (r.updated : Int) > 30 then 0 else downvotesOf r.relevance) ∧
      (SubjectReview_edit today r g a tx).grade = g ∧
      (SubjectReview_edit today r g a tx).anonym = a ∧
      (SubjectReview_edit today r g a tx).textReview = tx ∧
      (SubjectReview_edit today r g a tx).updated = today ∧
      (TeacherReview_edit today r2 g a tx).relevance =
        (if (today : Int) - (r2.updated : Int) > 30 then [] else r2.relevance) := by
  unfold SubjectReview_edit TeacherReview_edit
  by_cases h : (today : Int) - (r.updated : Int) > 30 <;>
    by_cases h2 : (today : Int) - (r2.updated : Int) > 30 <;>
      simp [h, h2, upvotesOf, downvotesOf]

/-- C7: the bulk import walks the guarantors/teachers map of a subject record
calling Teacher.update_or_create, but the Teacher class of
school/database.py defines no such attribute (the upsert is named
get_or_create), so any record with at least one teacher entry raises
AttributeError instead of upserting a row; only an empty map completes. -/
theorem school_import_teachers_raises (id : Nat) (nm : String)
    (rest : List (Nat × String)) :
    school_import_teachers ((id, nm) :: rest) =
        Except.error ("AttributeError: " ++ updateOrCreateName) ∧
      school_import_teachers [] = Except.ok [] :=
  ⟨rfl, rfl⟩

/-- C8: linking a subject to a program with an obligation code outside
OBLIGATIONS shows the list of valid codes, but the validation branch is
missing a return: execution falls through, the reply loop has rebound the
obligation variable to the last element of OBLIGATIONS, and a SubjectProgram
relation row is inserted anyway (with obligation O), contradicting the
claim that no row is inserted. -/
theorem link_program_subject_invalid_inserts :
    link_program_subject true true (fun _ => false) obligationX =
      { replies := [LinkMsg.invalidObligation, LinkMsg.linked],
        inserted := some lastObligation } := by decide

/-! ## Helper lemmas for the reset commands and the vote store -/

theorem all_foldl_append {α β : Type} (p : α → Bool) (g : β → List α) :
    ∀ (l : List β) (acc : List α), acc.all p = true →
      (∀ b ∈ l, (g b).all p = true) →
      (l.foldl (fun acc b => acc ++ g b) acc).all p = true := by
  intro l
  induction l with
  | nil => intro acc h _; exact h
  | cons b rest ih =>
    intro acc h hall
    rw [List.foldl_cons]
    apply ih
    · rw [List.all_append, h, hall b (List.mem_cons_self b rest)]
      rfl
    · intro b2 hb2
      exact hall b2 (List.mem_cons_of_mem b hb2)

theorem authorVotes_filter_ne (store : List (Nat × Bool)) (a u : Nat) (h : a ≠ u) :
    authorVotes a (store.filter (fun rec => !(rec.1 == u))) = authorVotes a store := by
  unfold authorVotes
  have hau : ¬ u = a := fun he => h he.symm
  induction store with
  | nil => rfl
  | cons rec rest ih =>
    by_cases hr : rec.1 = u
    · have h2 : ¬ rec.1 = a := by
        rw [hr]
        exact hau
      simpa [List.filter_cons, hr, h2, hau, h] using ih
    · by_cases ha2 : rec.1 = a
      · simpa [List.filter_cons, hr, ha2, hau, h] using ih
      · simpa [List.filter_cons, hr, ha2, hau, h] using ih

theorem authorVotes_map_update (store : List (Nat × Bool)) (a u : Nat) (b : Bool)
    (h : a ≠ u) :
    authorVotes a (store.map (fun rec => if rec.1 == u then (rec.1, b) else rec)) =
      authorVotes a store := by
  unfold authorVotes
  have hau : ¬ u = a := fun he => h he.symm
  induction store with
  | nil => rfl
  | cons rec rest ih =>
    by_cases hr : rec.1 = u
    · have h2 : ¬ rec.1 = a := by
        rw [hr]
        exact hau
      simpa [List.map_cons, List.filter_cons, hr, h2, hau, h] using ih
    · by_cases ha2 : rec.1 = a
      · simpa [List.map_cons, List.filter_cons, hr, ha2, hau, h] using ih
      · simpa [List.map_cons, List.filter_cons, hr, ha2, hau, h] using ih

/-- C9 counterexample: a bulk role-reset invocation with one role held by one
member removes the role immediately; its action trace contains a destructive
removeRole action and no confirmation prompt at all, contradicting the claim
that every such invocation presents a confirmation prompt before any
destructive change. -/
theorem role_reset_no_prompt_cex :
    role_reset true [(1, [7])] = [ResetAction.removeRole 1 7] ∧
      ResetAction.prompt ∉ role_reset true [(1, [7])] := by decide

/-- C9 (amended): only the sudo review deletion is gated behind a
confirmation prompt — on timeout (or refusal) it performs no deletion — while
the bulk role-reset and channel-reset commands never present a confirmation
prompt before their destructive changes. -/
theorem destructive_reset_gating (rolesFound : Bool)
    (roles : List (Nat × List Nat)) (channels : List (Nat × List (Nat × Bool)))
    (reviewFound : Bool) (idx : Nat) :
    ((role_reset rolesFound roles).all (fun a => !(a == ResetAction.prompt))) = true ∧
      ((channels_reset channels).all (fun a => !(a == ResetAction.prompt))) = true ∧
      review_subject_sudo_remove reviewFound idx none =
        (if reviewFound then [ResetAction.prompt] else []) ∧
      review_subject_sudo_remove reviewFound idx (some false) =
        (if reviewFound then [ResetAction.prompt] else []) := by
  refine ⟨?_, ?_, ?_, ?_⟩
  · unfold role_reset
    by_cases hf : rolesFound
    · rw [if_neg (by simp [hf])]
      apply all_foldl_append
      · rfl
      · intro rm _
        rw [List.all_eq_true]
        intro x hx
        rw [List.mem_map] at hx
        obtain ⟨m, _, hm⟩ := hx
        rw [← hm]
        rfl
    · rw [if_pos (by simp [hf])]
      rfl
  · unfold channels_reset
    apply all_foldl_append
    · rfl
    · intro ch _
      rw [List.all_eq_true]
      intro x hx
      rw [List.mem_map] at hx
      obtain ⟨tgt, _, htgt⟩ := hx
      rw [← htgt]
      rfl
  · unfold review_subject_sudo_remove
    by_cases hf : reviewFound
    · rw [if_neg (by simp [hf]), if_pos hf]
    · rw [if_pos (by simp [hf]), if_neg hf]
  · unfold review_subject_sudo_remove
    by_cases hf : reviewFound
    · rw [if_neg (by simp [hf]), if_pos hf]
    · rw [if_pos (by simp [hf]), if_neg hf]

/-- C10: a voting interaction issued by the review's own author never reaches
review.vote — the author check rejects it first, whatever the vote value and
the voter's permissions — so the vote store is unchanged, and more generally
no interaction through the embed interface can create, change or delete a
vote record whose voter id equals the author id. -/
theorem embed_vote_author_invariant (authorId : Nat) (hasPerm : Bool)
    (store : List (Nat × Bool)) (userId : Nat) (v : Option Bool) :
    embed_vote authorId hasPerm store authorId v = store ∧
      authorVotes authorId (embed_vote authorId hasPerm store userId v) =
        authorVotes authorId store := by
  constructor
  · unfold embed_vote
    rw [if_pos rfl]
  · unfold embed_vote
    by_cases hu : authorId = userId
    · rw [if_pos hu]
    · rw [if_neg hu]
      by_cases hp : hasPerm
      · rw [if_neg (by simp [hp])]
        unfold review_vote
        cases v with
        | none =>
          cases hf : findVote store userId with
          | none => rfl
          | some rec => exact authorVotes_filter_ne store authorId userId hu
        | some b =>
          cases hf : findVote store userId with
          | none =>
            unfold authorVotes
            rw [List.filter_append]
            have hne : ¬ userId = authorId := fun he => hu he.symm
            have : List.filter (fun rec => rec.1 == authorId) [(userId, b)] = [] := by
              simp [List.filter_cons, hne]
            rw [this, List.append_nil]
          | some rec => exact authorVotes_map_update store authorId userId b hu
      · rw [if_pos (by simp [hp])]
